import Mathlib

/-!
Shallow embedding of the `echotune-minimp3-rs` decoder front-end
(`src/lib.rs`, `src/error.rs`).

The external minimp3 codec is opaque to the wrapper, so it is modelled as an
oracle: a list of codec responses, one response consumed per decode call.
The byte source (`R : io.Read`) is modelled as a list of read events, one
event consumed per `read` call; an empty list means every further read
returns `0` bytes.  Machine integers are `Nat`/`Int`; the `usize`
subtraction in `Decoder::decode_frame` uses checked semantics (underflow
aborts, modelled as `none`), and the explicit `panic!` in
`SeekDecoder::read_samples` is likewise modelled as `none`.

`DecoderState` carries ghost fields (`totalRead`, `consumed`, `lastRead`,
`lastSamples`) that record observable history for the accounting theorems;
they do not influence any control flow.
-/

namespace Minimp3

/-- Modelled from the spec: the codec's published maximum number of samples
in one MP3 frame.  The value comes from the codec bindings crate
(`ffi::MINIMP3_MAX_SAMPLES_PER_FRAME = 1152 * 2`), whose generated source is
not under `src/`; the spec only requires a fixed codec-published maximum. -/
def MAX_SAMPLES_PER_FRAME : Nat := 2304

/-- `const BUFFER_SIZE: usize = MAX_SAMPLES_PER_FRAME * 15;` (lib.rs:28). -/
def BUFFER_SIZE : Nat := MAX_SAMPLES_PER_FRAME * 15

/-- `const REFILL_TRIGGER: usize = MAX_SAMPLES_PER_FRAME * 8;` (lib.rs:29). -/
def REFILL_TRIGGER : Nat := MAX_SAMPLES_PER_FRAME * 8

/-- Capacity of the scratch buffer `buffer_refill: Box<[u8; MAX_SAMPLES_PER_FRAME * 5]>`
(lib.rs:37). -/
def SCRATCH_SIZE : Nat := MAX_SAMPLES_PER_FRAME * 5

/-- The error enum of `src/error.rs`.  The `std::io::Error` payload of `Io`
is abstracted away; `Io` is rendered `ioErr` and `MiniIo` is rendered
`miniIoErr` (identifier restrictions). -/
inductive Error where
  | ioErr
  | insufficientData
  | skippedData
  | eof
  | miniMemory
  | miniIoErr
  | miniParam
  | miniUser
  | miniDecode
  | miniUnknown
deriving DecidableEq, Repr

/-- The `Frame` struct (lib.rs:49-60): decoded interleaved samples plus
stream metadata. -/
structure Frame where
  data : List Int
  sample_rate : Int
  channels : Nat
  layer : Nat
  bitrate : Int
deriving DecidableEq, Repr

/-- One response of the opaque codec primitive `ffi::mp3dec_decode_frame`:
the sample count it returns, the fields of `frame_info` it fills, and the
PCM data it writes into the output buffer.  `frame_bytes` is modelled as
`Nat`: the Rust code casts the `c_int` field with `as usize`, so a negative
value would appear as a huge unsigned count and is subsumed by large `Nat`
values. -/
structure CodecResp where
  samples : Nat
  frame_bytes : Nat
  channels : Nat
  hz : Int
  layer : Nat
  bitrate_kbps : Int
  pcm : List Int
deriving DecidableEq, Repr

/-- One behaviour of the byte source on a single `read` call: either it
yields the bytes `bytes` (of which at most the destination buffer's length
is transferred), or the read fails with an I/O error.  An exhausted event
list models a source whose reads keep returning `0` bytes. -/
inductive ReadEvent where
  | chunk (bytes : List Nat)
  | readErr
deriving DecidableEq, Repr

/-- State of `Decoder<R>` (lib.rs:34-39): the remaining reader behaviour and
the ring buffer contents, plus ghost accounting fields.
`totalRead` = total bytes ever read from the source, `consumed` = total
`frame_bytes` trimmed off the ring buffer, `lastRead` = byte count of the
most recent completed refill, `lastSamples` = sample count of the most
recent codec decode attempt.  Ghost fields never influence control flow. -/
structure DecoderState where
  reader : List ReadEvent
  buffer : List Nat
  totalRead : Nat
  consumed : Nat
  lastRead : Option Nat
  lastSamples : Option Nat
deriving DecidableEq, Repr

/-- `Decoder::new` (lib.rs:64-74): takes ownership of the reader and starts
with an empty ring buffer; no read is performed. -/
def Decoder.new (reader : List ReadEvent) : DecoderState :=
  { reader := reader
    buffer := []
    totalRead := 0
    consumed := 0
    lastRead := none
    lastSamples := none }

/-- `Decoder::into_inner` (lib.rs:88-90): destroy the decoder and return the
inner reader. -/
def Decoder.into_inner (st : DecoderState) : List ReadEvent :=
  st.reader

/-- The `Frame` value built inside `Decoder::decode_frame` (lib.rs:105-117):
the PCM vector gets length `samples * channels` when `samples > 0` and
stays empty otherwise. -/
def mkFrame (r : CodecResp) : Frame :=
  { data := if r.samples > 0 then r.pcm.take (r.samples * r.channels) else []
    sample_rate := r.hz
    channels := r.channels
    layer := r.layer
    bitrate := r.bitrate_kbps }

/-- `Decoder::decode_frame` (lib.rs:92-132) given the codec's response `r`
for this call: trim exactly `r.frame_bytes` bytes off the ring buffer's
head (`truncate_front(current_len - frame_bytes)`), then classify.
`none` models the abort of the unsigned subtraction
`current_len - frame_info.frame_bytes` when the codec reports consuming
more bytes than the buffer holds. -/
def decode_frame (r : CodecResp) (buf : List Nat) :
    Option (Except Error Frame × List Nat) :=
  if r.frame_bytes ≤ buf.length then
    let buf' := buf.drop r.frame_bytes
    if r.samples = 0 then
      if r.frame_bytes > 0 then
        some (Except.error Error.skippedData, buf')
      else
        some (Except.error Error.insufficientData, buf')
    else
      some (Except.ok (mkFrame r), buf')
  else
    none

/-- `Decoder::refill` (lib.rs:203-208): one `reader.read` into the scratch
buffer (so at most `SCRATCH_SIZE` bytes), append the bytes actually read to
the ring buffer's tail, and return the count.  Result `(none, st)` models
the `?`-propagated `io::Error`. -/
def refill (st : DecoderState) : Option Nat × DecoderState :=
  match st.reader with
  | [] =>
      (some 0, { st with lastRead := some 0 })
  | ReadEvent.readErr :: rest =>
      (none, { st with reader := rest })
  | ReadEvent.chunk bs :: rest =>
      let got := bs.take SCRATCH_SIZE
      (some got.length,
       { st with
          reader := rest
          buffer := st.buffer ++ got
          totalRead := st.totalRead + got.length
          lastRead := some got.length })

/-- The refill stage at the top of the `next_frame` loop (lib.rs:182-186):
refill only when the ring buffer is below `REFILL_TRIGGER`.  `Sum.inl st`
is the early `return Err(Io)` with resulting state `st`; `Sum.inr (b, st)`
carries `bytes_read : Option Nat` (`none` when no refill was performed). -/
def refillStep (st : DecoderState) : Sum DecoderState (Option Nat × DecoderState) :=
  if st.buffer.length < REFILL_TRIGGER then
    match refill st with
    | (none, st') => Sum.inl st'
    | (some n, st') => Sum.inr (some n, st')
  else
    Sum.inr (none, st)

/-- The state update performed by one decode attempt inside the loop:
the trimmed buffer replaces the old one and the ghost accounting fields
record the attempt. -/
def afterDecode (r : CodecResp) (st : DecoderState) (buf' : List Nat) : DecoderState :=
  { st with
      buffer := buf'
      consumed := st.consumed + r.frame_bytes
      lastSamples := some r.samples }

/-- `Decoder::next_frame` (lib.rs:179-201).  The codec oracle list supplies
one response per loop iteration; `none` means the oracle was exhausted
before the loop returned (the Rust loop would keep spinning) or that a
decode attempt aborted.  A `some` result carries the returned value, the
unconsumed oracle suffix, and the final state. -/
def next_frame :
    List CodecResp → DecoderState →
    Option (Except Error Frame × List CodecResp × DecoderState)
  | [], _ => none
  | r :: rest, st =>
    match refillStep st with
    | Sum.inl stErr => some (Except.error Error.ioErr, r :: rest, stErr)
    | Sum.inr (bytesRead, st₁) =>
      match decode_frame r st₁.buffer with
      | none => none
      | some (res, buf') =>
        match res with
        | Except.ok f => some (Except.ok f, rest, afterDecode r st₁ buf')
        | Except.error e =>
          if e = Error.insufficientData ∨ e = Error.skippedData then
            if bytesRead = some 0 then
              some (Except.error Error.eof, rest, afterDecode r st₁ buf')
            else
              next_frame rest (afterDecode r st₁ buf')
          else
            some (Except.error e, rest, afterDecode r st₁ buf')

/-- The ring-buffer / source accounting invariant: every byte read from the
source is either still in the ring buffer or was trimmed off as consumed. -/
def Accounted (st : DecoderState) : Prop :=
  st.totalRead = st.consumed + st.buffer.length

/-- `u64::MAX`, the sentinel returned by `read_callback` on a failed read
(`std::u64::MAX`, lib.rs:228). -/
def U64_MAX : Nat := 2 ^ 64 - 1

/-- Result of one `read_callback` invocation: the returned count, the bytes
actually placed into the destination buffer, and a ghost flag recording
whether a source read failed. -/
structure CbResult where
  ret : Nat
  placed : List Nat
  failed : Bool
deriving DecidableEq, Repr

/-- The `while position < size` loop of `read_callback` (lib.rs:223-230).
Each `reader.read(&mut buf[position..])` consumes one event and transfers
at most `size - position` bytes; an exhausted event list and an empty chunk
both model `Ok(0)` (return `position`); `readErr` models `Err(_)`
(return `u64::MAX`). -/
def read_callback_go (size : Nat) :
    List ReadEvent → Nat → List Nat → CbResult
  | events, position, placed =>
    if position < size then
      match events with
      | [] => { ret := position, placed := placed, failed := false }
      | ReadEvent.readErr :: _ =>
          { ret := U64_MAX, placed := placed, failed := true }
      | ReadEvent.chunk bs :: rest =>
          let got := bs.take (size - position)
          if got.length = 0 then
            { ret := position, placed := placed, failed := false }
          else
            read_callback_go size rest (position + got.length) (placed ++ got)
    else
      { ret := position, placed := placed, failed := false }

/-- `read_callback` (lib.rs:211-232): the demand-read callback registered
with the codec.  It starts at `position = 0` with nothing placed. -/
def read_callback (reader : List ReadEvent) (size : Nat) : CbResult :=
  read_callback_go size reader 0 []

/-- Modelled from the spec: codec status codes, from the codec bindings
crate (`MP3D_E_*` in minimp3's `minimp3_ex.h`), whose generated source is
not under `src/`.  The spec only requires distinct nonzero codes. -/
def MP3D_E_PARAM : Int := -1

/-- Modelled from the spec: see `MP3D_E_PARAM`. -/
def MP3D_E_MEMORY : Int := -2

/-- Modelled from the spec: see `MP3D_E_PARAM`. -/
def MP3D_E_IOERROR : Int := -3

/-- Modelled from the spec: see `MP3D_E_PARAM`. -/
def MP3D_E_USER : Int := -4

/-- Modelled from the spec: see `MP3D_E_PARAM`. -/
def MP3D_E_DECODE : Int := -5

/-- `from_mini_error` (error.rs:74-84): translate a codec status code;
`0` is success, known nonzero codes map to their variants, anything else
to `MiniUnknown`. -/
def from_mini_error (ec : Int) : Except Error Unit :=
  if ec = 0 then Except.ok ()
  else if ec = MP3D_E_MEMORY then Except.error Error.miniMemory
  else if ec = MP3D_E_IOERROR then Except.error Error.miniIoErr
  else if ec = MP3D_E_PARAM then Except.error Error.miniParam
  else if ec = MP3D_E_USER then Except.error Error.miniUser
  else if ec = MP3D_E_DECODE then Except.error Error.miniDecode
  else Except.error Error.miniUnknown

/-- One response of the opaque codec primitive `ffi::mp3dec_ex_read_frame`
used by `SeekDecoder::decode_frame`: the returned sample count (`u64`), the
`frame_info` fields, and the PCM data behind the returned buffer pointer.
`frame_bytes` keeps the `c_int` type (`Int`), since this path tests it with
`> 0` rather than casting it. -/
structure ExFrameResp where
  samples : Nat
  frame_bytes : Int
  channels : Nat
  hz : Int
  layer : Nat
  bitrate_kbps : Int
  pcm : List Int
deriving DecidableEq, Repr

/-- `SeekDecoder::decode_frame` (lib.rs:299-332) given the codec's response:
build the frame from the `samples`-long buffer the codec returned, then
classify exactly as the sequential path does — but return the
classification directly to the caller. -/
def SeekDecoder.decode_frame (r : ExFrameResp) : Except Error Frame :=
  let frame : Frame :=
    { data := r.pcm.take r.samples
      sample_rate := r.hz
      channels := r.channels
      layer := r.layer
      bitrate := r.bitrate_kbps }
  if r.samples = 0 then
    if r.frame_bytes > 0 then
      Except.error Error.skippedData
    else
      Except.error Error.insufficientData
  else
    Except.ok frame

/-- `SeekDecoder::read_samples` (lib.rs:347-362) given the destination
length `bufLen`, the count `len` the codec's `mp3dec_ex_read` returned, and
the codec's `last_error` field.  `none` models the explicit `panic!` on
`len > bufLen`. -/
def SeekDecoder.read_samples (bufLen : Nat) (len : Nat) (last_error : Int) :
    Option (Except Error Nat) :=
  if len = bufLen then
    some (Except.ok len)
  else if len < bufLen then
    match from_mini_error last_error with
    | Except.error e => some (Except.error e)
    | Except.ok _ => some (Except.ok len)
  else
    none

/-! ## Helper lemmas -/

theorem decode_frame_some (r : CodecResp) (buf : List Nat) (res : Except Error Frame)
    (buf' : List Nat) (h : decode_frame r buf = some (res, buf')) :
    buf' = buf.drop r.frame_bytes ∧ r.frame_bytes ≤ buf.length ∧
      ((∃ f, res = Except.ok f) ∨ res = Except.error Error.skippedData ∨
        res = Except.error Error.insufficientData) := by
  unfold decode_frame at h
  split at h
  · split at h
    · split at h <;> simp_all
    · rw [Option.some.injEq, Prod.mk.injEq] at h
      obtain ⟨h1, h2⟩ := h
      subst h1
      subst h2
      exact ⟨rfl, by assumption, Or.inl ⟨mkFrame r, rfl⟩⟩
  · simp_all

theorem decode_frame_zero_samples (r : CodecResp) (buf : List Nat)
    (hs : r.samples = 0) (hle : r.frame_bytes ≤ buf.length) :
    ∃ e, (e = Error.skippedData ∨ e = Error.insufficientData) ∧
      decode_frame r buf = some (Except.error e, buf.drop r.frame_bytes) := by
  unfold decode_frame
  rw [if_pos hle, if_pos hs]
  split
  · exact ⟨Error.skippedData, Or.inl rfl, rfl⟩
  · exact ⟨Error.insufficientData, Or.inr rfl, rfl⟩

theorem decode_frame_error (r : CodecResp) (buf : List Nat) (e : Error) (buf' : List Nat)
    (h : decode_frame r buf = some (Except.error e, buf')) :
    r.samples = 0 ∧ (e = Error.skippedData ∨ e = Error.insufficientData) ∧
      buf' = buf.drop r.frame_bytes := by
  unfold decode_frame at h
  split at h
  · split at h
    · split at h <;> simp_all
    · simp_all
  · simp_all

theorem refill_some (st : DecoderState) (n : Nat) (st' : DecoderState)
    (h : refill st = (some n, st')) :
    n ≤ SCRATCH_SIZE ∧
    (∃ got : List Nat, got.length = n ∧ st'.buffer = st.buffer ++ got) ∧
    st'.buffer.length = st.buffer.length + n ∧
    st'.totalRead = st.totalRead + n ∧
    st'.consumed = st.consumed ∧
    st'.lastRead = some n := by
  unfold refill at h
  split at h
  · rw [Prod.mk.injEq, Option.some.injEq] at h
    obtain ⟨h1, h2⟩ := h
    subst h1
    subst h2
    exact ⟨Nat.zero_le _, ⟨[], rfl, by simp⟩, by simp, by simp, rfl, rfl⟩
  · simp at h
  · rw [Prod.mk.injEq, Option.some.injEq] at h
    obtain ⟨h1, h2⟩ := h
    subst h1
    subst h2
    refine ⟨?_, ⟨_, rfl, rfl⟩, by simp, rfl, rfl, rfl⟩
    rw [List.length_take]
    omega

theorem refill_none (st st' : DecoderState) (h : refill st = (none, st')) :
    st'.buffer = st.buffer ∧ st'.totalRead = st.totalRead ∧
      st'.consumed = st.consumed ∧ st'.lastRead = st.lastRead := by
  unfold refill at h
  split at h
  · simp at h
  · rw [Prod.mk.injEq] at h
    obtain ⟨-, h2⟩ := h
    subst h2
    exact ⟨rfl, rfl, rfl, rfl⟩
  · simp at h

theorem refillStep_inl (st st' : DecoderState) (h : refillStep st = Sum.inl st') :
    st.buffer.length < REFILL_TRIGGER ∧ refill st = (none, st') := by
  unfold refillStep at h
  split at h
  · split at h
    · rename_i heq
      rw [Sum.inl.injEq] at h
      subst h
      exact ⟨by assumption, heq⟩
    · simp at h
  · simp at h

theorem refillStep_inr (st : DecoderState) (b : Option Nat) (st₁ : DecoderState)
    (h : refillStep st = Sum.inr (b, st₁)) :
    (b = none ∧ st₁ = st ∧ ¬st.buffer.length < REFILL_TRIGGER) ∨
    (∃ n, b = some n ∧ st.buffer.length < REFILL_TRIGGER ∧
      refill st = (some n, st₁)) := by
  unfold refillStep at h
  split at h
  · split at h
    · simp at h
    · rename_i n st'' heq
      rw [Sum.inr.injEq, Prod.mk.injEq] at h
      obtain ⟨h1, h2⟩ := h
      subst h1
      subst h2
      exact Or.inr ⟨n, rfl, by assumption, heq⟩
  · rw [Sum.inr.injEq, Prod.mk.injEq] at h
    obtain ⟨h1, h2⟩ := h
    subst h1
    subst h2
    exact Or.inl ⟨rfl, rfl, by assumption⟩

theorem afterDecode_accounted (r : CodecResp) (st : DecoderState) (buf' : List Nat)
    (hlen : st.buffer.length = r.frame_bytes + buf'.length)
    (ha : Accounted st) : Accounted (afterDecode r st buf') := by
  unfold Accounted afterDecode at *
  simp only []
  omega

theorem next_frame_run (codec : List CodecResp) :
    ∀ (st : DecoderState) (res : Except Error Frame) (c' : List CodecResp)
      (st' : DecoderState), next_frame codec st = some (res, c', st') →
      ((∃ f, res = Except.ok f) ∨ res = Except.error Error.eof ∨
        res = Except.error Error.ioErr) ∧
      (res = Except.error Error.eof →
        st'.lastRead = some 0 ∧ st'.lastSamples = some 0 ∧
        st'.buffer.length < REFILL_TRIGGER) ∧
      (Accounted st → Accounted st') := by
  induction codec with
  | nil =>
    intro st res c' st' h
    simp [next_frame] at h
  | cons r rest ih =>
    intro st res c' st' h
    unfold next_frame at h
    split at h
    · -- refillStep st = Sum.inl stE : the refill's io::Error propagates
      rename_i stE heq
      rw [Option.some.injEq, Prod.mk.injEq, Prod.mk.injEq] at h
      obtain ⟨h1, -, h3⟩ := h
      subst h1
      subst h3
      obtain ⟨-, hrn⟩ := refillStep_inl st stE heq
      obtain ⟨hb, ht, hc, -⟩ := refill_none st stE hrn
      refine ⟨Or.inr (Or.inr rfl), fun he => by simp at he, fun ha => ?_⟩
      unfold Accounted at *
      rw [hb, ht, hc]
      exact ha
    · -- refillStep st = Sum.inr (bytesRead, st₁)
      rename_i bytesRead st₁ heq
      split at h
      · -- decode_frame aborted
        simp at h
      · -- decode_frame r st₁.buffer = some (res₀, buf')
        rename_i res₀ buf' heq2
        have hacc1 : Accounted st → Accounted st₁ := by
          intro ha
          rcases refillStep_inr st bytesRead st₁ heq with ⟨-, h2, -⟩ | ⟨n, -, -, hr⟩
          · rw [h2]
            exact ha
          · obtain ⟨-, -, hlen, ht, hc, -⟩ := refill_some st n st₁ hr
            unfold Accounted at *
            omega
        have hacc2 : Accounted st → Accounted (afterDecode r st₁ buf') := by
          intro ha
          obtain ⟨hb', hle, -⟩ := decode_frame_some r st₁.buffer res₀ buf' heq2
          refine afterDecode_accounted r st₁ buf' ?_ (hacc1 ha)
          rw [hb', List.length_drop]
          omega
        split at h
        · -- codec produced a frame
          rename_i f
          rw [Option.some.injEq, Prod.mk.injEq, Prod.mk.injEq] at h
          obtain ⟨h1, -, h3⟩ := h
          subst h1
          subst h3
          exact ⟨Or.inl ⟨f, rfl⟩, fun he => by simp at he, hacc2⟩
        · -- classification error e
          rename_i e
          obtain ⟨hs0, hes, hb'⟩ := decode_frame_error r st₁.buffer e buf' heq2
          split at h
          · split at h
            · -- most recent refill read 0 bytes: return Eof
              rename_i hbr
              rw [Option.some.injEq, Prod.mk.injEq, Prod.mk.injEq] at h
              obtain ⟨h1, -, h3⟩ := h
              subst h1
              subst h3
              rcases refillStep_inr st bytesRead st₁ heq with ⟨hbn, -, -⟩ | ⟨n, hbn, hlt, hr⟩
              · rw [hbn] at hbr
                simp at hbr
              · rw [hbn] at hbr
                rw [Option.some.injEq] at hbr
                subst hbr
                obtain ⟨-, -, hlen, -, -, hlast⟩ := refill_some st 0 st₁ hr
                refine ⟨Or.inr (Or.inl rfl), fun _ => ⟨?_, ?_, ?_⟩, hacc2⟩
                · simpa [afterDecode] using hlast
                · simp [afterDecode, hs0]
                · simp only [afterDecode]
                  rw [hb', List.length_drop]
                  omega
            · -- retry: the loop spins again
              exact ih (afterDecode r st₁ buf') res c' st' h
                |>.imp id (fun hp => hp.imp id (fun hq ha => hq (hacc2 ha)))
          · -- a fatal error branch is unreachable for classification errors
            rcases hes with he | he <;> simp [he] at *


theorem next_frame_iteration (r : CodecResp) (rest : List CodecResp)
    (st : DecoderState) (n : Nat) (st₁ : DecoderState)
    (hlt : st.buffer.length < REFILL_TRIGGER)
    (hr : refill st = (some n, st₁))
    (hs : r.samples = 0)
    (hfb : r.frame_bytes ≤ st₁.buffer.length) :
    (n = 0 → next_frame (r :: rest) st =
       some (Except.error Error.eof, rest,
         afterDecode r st₁ (st₁.buffer.drop r.frame_bytes))) ∧
    (n ≠ 0 → next_frame (r :: rest) st =
       next_frame rest (afterDecode r st₁ (st₁.buffer.drop r.frame_bytes))) := by
  have hstep : refillStep st = Sum.inr (some n, st₁) := by
    unfold refillStep
    rw [if_pos hlt, hr]
  obtain ⟨e, he, hdf⟩ := decode_frame_zero_samples r st₁.buffer hs hfb
  constructor <;> intro hn
  · subst hn
    unfold next_frame
    rw [hstep]
    simp only []
    rw [hdf]
    rcases he with he | he <;> subst he <;> simp
  · conv_lhs => unfold next_frame
    rw [hstep]
    simp only []
    rw [hdf]
    have hne : ¬(some n = some 0) := by simpa using hn
    rcases he with he | he <;> subst he <;> simp [hne]

theorem from_mini_error_nonzero (ec : Int) (h : ec ≠ 0) :
    ∃ e, from_mini_error ec = Except.error e := by
  unfold from_mini_error
  rw [if_neg h]
  repeat' split
  all_goals exact ⟨_, rfl⟩

theorem read_callback_go_spec (size : Nat) :
    ∀ (events : List ReadEvent) (position : Nat) (placed : List Nat),
      position ≤ size →
      ((read_callback_go size events position placed).failed = false →
         (read_callback_go size events position placed).ret ≤ size ∧
         (read_callback_go size events position placed).ret + placed.length =
           position + (read_callback_go size events position placed).placed.length) ∧
      ((read_callback_go size events position placed).failed = true →
         (read_callback_go size events position placed).ret = U64_MAX) := by
  intro events
  induction events with
  | nil =>
    intro position placed hpos
    unfold read_callback_go
    split <;> exact ⟨fun _ => ⟨hpos, rfl⟩, fun h => by simp_all⟩
  | cons ev rest ih =>
    intro position placed hpos
    unfold read_callback_go
    split
    · match ev with
      | ReadEvent.readErr =>
        exact ⟨fun h => by simp_all, fun _ => rfl⟩
      | ReadEvent.chunk bs =>
        simp only
        split
        · exact ⟨fun _ => ⟨hpos, rfl⟩, fun h => by simp_all⟩
        · have hgot : (bs.take (size - position)).length ≤ size - position := by
            rw [List.length_take]
            omega
          have hpos' : position + (bs.take (size - position)).length ≤ size := by omega
          have := ih (position + (bs.take (size - position)).length)
            (placed ++ (bs.take (size - position))) hpos'
          refine ⟨fun hf => ?_, fun hf => (this.2 hf)⟩
          obtain ⟨h1, h2⟩ := this.1 hf
          refine ⟨h1, ?_⟩
          rw [List.length_append] at h2
          omega
    · exact ⟨fun _ => ⟨hpos, rfl⟩, fun h => by simp_all⟩

theorem read_callback_full_single (bs : List Nat) (hpos : 0 < bs.length) :
    read_callback [ReadEvent.chunk bs] bs.length =
      { ret := bs.length, placed := bs, failed := false } := by
  unfold read_callback read_callback_go
  rw [if_pos hpos]
  simp only [Nat.sub_zero, List.take_length]
  rw [if_neg (by omega)]
  unfold read_callback_go
  rw [if_neg (by omega)]
  simp

/-! ## Claim theorems -/

/-- C1: whenever `Decoder::next_frame` returns, it returns a `Frame`, `Eof`
or the refill's `Io` error — never `InsufficientData` or `SkippedData`,
which only drive another loop iteration or the transition to `Eof`. -/
theorem next_frame_no_internal_errors (codec : List CodecResp) (st : DecoderState)
    (res : Except Error Frame) (c' : List CodecResp) (st' : DecoderState)
    (h : next_frame codec st = some (res, c', st')) :
    res ≠ Except.error Error.insufficientData ∧
    res ≠ Except.error Error.skippedData ∧
    ((∃ f, res = Except.ok f) ∨ res = Except.error Error.eof ∨
      res = Except.error Error.ioErr) := by
  obtain ⟨h1, -, -⟩ := next_frame_run codec st res c' st' h
  refine ⟨?_, ?_, h1⟩ <;>
    rcases h1 with ⟨f, hf⟩ | hf | hf <;> subst hf <;> simp

/-- Witness for C1: a run from a fresh decoder that decodes one frame. -/
theorem next_frame_no_internal_errors_witness :
    (Except.ok { data := [7], sample_rate := 44100, channels := 1, layer := 3, bitrate := 128 } : Except Error Frame) ≠ Except.error Error.insufficientData ∧
    (Except.ok { data := [7], sample_rate := 44100, channels := 1, layer := 3, bitrate := 128 } : Except Error Frame) ≠ Except.error Error.skippedData ∧
    ((∃ f, (Except.ok { data := [7], sample_rate := 44100, channels := 1, layer := 3, bitrate := 128 } : Except Error Frame) = Except.ok f) ∨
      (Except.ok { data := [7], sample_rate := 44100, channels := 1, layer := 3, bitrate := 128 } : Except Error Frame) = Except.error Error.eof ∨
      (Except.ok { data := [7], sample_rate := 44100, channels := 1, layer := 3, bitrate := 128 } : Except Error Frame) = Except.error Error.ioErr) :=
  next_frame_no_internal_errors
    [{ samples := 1, frame_bytes := 0, channels := 1, hz := 44100, layer := 3,
       bitrate_kbps := 128, pcm := [7] }]
    (Decoder.new [])
    (Except.ok { data := [7], sample_rate := 44100, channels := 1, layer := 3, bitrate := 128 })
    []
    { reader := [], buffer := [], totalRead := 0, consumed := 0,
      lastRead := some 0, lastSamples := some 1 }
    rfl

/-- C2: `next_frame` returns `Eof` exactly when a decode attempt yields
zero samples and the most recent refill read 0 bytes: any `Eof` return has
the most recent refill reading 0 and the final decode attempt yielding 0
samples; conversely, a below-threshold iteration whose refill reads 0 and
whose decode yields 0 samples returns `Eof`, while one whose refill reads
a nonzero count loops back instead of returning. -/
theorem next_frame_eof_exactly :
    (∀ (codec : List CodecResp) (st : DecoderState) (res : Except Error Frame)
       (c' : List CodecResp) (st' : DecoderState),
       next_frame codec st = some (res, c', st') → res = Except.error Error.eof →
       st'.lastRead = some 0 ∧ st'.lastSamples = some 0) ∧
    (∀ (r : CodecResp) (rest : List CodecResp) (st st₁ : DecoderState),
       st.buffer.length < REFILL_TRIGGER → refill st = (some 0, st₁) →
       r.samples = 0 → r.frame_bytes ≤ st₁.buffer.length →
       next_frame (r :: rest) st =
         some (Except.error Error.eof, rest,
           afterDecode r st₁ (st₁.buffer.drop r.frame_bytes))) ∧
    (∀ (r : CodecResp) (rest : List CodecResp) (st st₁ : DecoderState) (n : Nat),
       st.buffer.length < REFILL_TRIGGER → refill st = (some n, st₁) → n ≠ 0 →
       r.samples = 0 → r.frame_bytes ≤ st₁.buffer.length →
       next_frame (r :: rest) st =
         next_frame rest (afterDecode r st₁ (st₁.buffer.drop r.frame_bytes))) := by
  refine ⟨fun codec st res c' st' h he => ?_,
    fun r rest st st₁ hlt hr hs hfb =>
      (next_frame_iteration r rest st 0 st₁ hlt hr hs hfb).1 rfl,
    fun r rest st st₁ n hlt hr hn hs hfb =>
      (next_frame_iteration r rest st n st₁ hlt hr hs hfb).2 hn⟩
  obtain ⟨h1, h2, -⟩ := (next_frame_run codec st res c' st' h).2.1 he
  exact ⟨h1, h2⟩

/-- Witness for C2: an `Eof` return after a skipping decode on an exhausted
source, the same iteration stated forwards, and a looping iteration after a
1-byte refill. -/
theorem next_frame_eof_exactly_witness :
    (({ reader := [], buffer := [9], totalRead := 3, consumed := 2,
        lastRead := some 0, lastSamples := some 0 } : DecoderState).lastRead = some 0 ∧
     ({ reader := [], buffer := [9], totalRead := 3, consumed := 2,
        lastRead := some 0, lastSamples := some 0 } : DecoderState).lastSamples = some 0) ∧
    next_frame
        [{ samples := 0, frame_bytes := 2, channels := 0, hz := 0, layer := 0,
           bitrate_kbps := 0, pcm := [] }]
        { reader := [], buffer := [9, 9, 9], totalRead := 3, consumed := 0,
          lastRead := none, lastSamples := none } =
      some (Except.error Error.eof, [],
        afterDecode
          { samples := 0, frame_bytes := 2, channels := 0, hz := 0, layer := 0,
            bitrate_kbps := 0, pcm := [] }
          { reader := [], buffer := [9, 9, 9], totalRead := 3, consumed := 0,
            lastRead := some 0, lastSamples := none }
          (([9, 9, 9] : List Nat).drop 2)) ∧
    next_frame
        [{ samples := 0, frame_bytes := 0, channels := 0, hz := 0, layer := 0,
           bitrate_kbps := 0, pcm := [] }]
        (Decoder.new [ReadEvent.chunk [1]]) =
      next_frame []
        (afterDecode
          { samples := 0, frame_bytes := 0, channels := 0, hz := 0, layer := 0,
            bitrate_kbps := 0, pcm := [] }
          { reader := [], buffer := [1], totalRead := 1, consumed := 0,
            lastRead := some 1, lastSamples := none }
          (([1] : List Nat).drop 0)) :=
  ⟨next_frame_eof_exactly.1
      [{ samples := 0, frame_bytes := 2, channels := 0, hz := 0, layer := 0,
         bitrate_kbps := 0, pcm := [] }]
      { reader := [], buffer := [9, 9, 9], totalRead := 3, consumed := 0,
        lastRead := none, lastSamples := none }
      (Except.error Error.eof) []
      { reader := [], buffer := [9], totalRead := 3, consumed := 2,
        lastRead := some 0, lastSamples := some 0 }
      rfl rfl,
   next_frame_eof_exactly.2.1
      { samples := 0, frame_bytes := 2, channels := 0, hz := 0, layer := 0,
        bitrate_kbps := 0, pcm := [] }
      []
      { reader := [], buffer := [9, 9, 9], totalRead := 3, consumed := 0,
        lastRead := none, lastSamples := none }
      { reader := [], buffer := [9, 9, 9], totalRead := 3, consumed := 0,
        lastRead := some 0, lastSamples := none }
      (by decide) rfl rfl (by decide),
   next_frame_eof_exactly.2.2
      { samples := 0, frame_bytes := 0, channels := 0, hz := 0, layer := 0,
        bitrate_kbps := 0, pcm := [] }
      []
      (Decoder.new [ReadEvent.chunk [1]])
      { reader := [], buffer := [1], totalRead := 1, consumed := 0,
        lastRead := some 1, lastSamples := none }
      1 (by decide) rfl (by decide) rfl (by decide)⟩

/-- C3: every `Decoder::decode_frame` call removes exactly the reported
`frame_bytes` from the ring buffer's head (also when zero samples were
produced), and across any run of `next_frame` calls from a fresh decoder
the total bytes read from the source equal the consumed byte counts plus
the bytes remaining in the ring buffer. -/
theorem frame_accounting :
    (∀ (r : CodecResp) (buf : List Nat) (res : Except Error Frame) (buf' : List Nat),
       decode_frame r buf = some (res, buf') →
       buf' = buf.drop r.frame_bytes ∧ buf.length = r.frame_bytes + buf'.length) ∧
    (∀ reader : List ReadEvent, Accounted (Decoder.new reader)) ∧
    (∀ (codec : List CodecResp) (st : DecoderState) (res : Except Error Frame)
       (c' : List CodecResp) (st' : DecoderState),
       next_frame codec st = some (res, c', st') → Accounted st → Accounted st') := by
  refine ⟨fun r buf res buf' h => ?_, fun reader => ?_,
    fun codec st res c' st' h ha => (next_frame_run codec st res c' st' h).2.2 ha⟩
  · obtain ⟨h1, h2, -⟩ := decode_frame_some r buf res buf' h
    refine ⟨h1, ?_⟩
    rw [h1, List.length_drop]
    omega
  · unfold Accounted Decoder.new
    simp

/-- Witness for C3: a skipping decode trims exactly 2 bytes off a 3-byte
buffer, and the accounting invariant survives a concrete `next_frame`
call. -/
theorem frame_accounting_witness :
    (([9] : List Nat) = ([9, 9, 9] : List Nat).drop
        ({ samples := 0, frame_bytes := 2, channels := 0, hz := 0, layer := 0,
           bitrate_kbps := 0, pcm := [] } : CodecResp).frame_bytes ∧
     ([9, 9, 9] : List Nat).length =
       ({ samples := 0, frame_bytes := 2, channels := 0, hz := 0, layer := 0,
          bitrate_kbps := 0, pcm := [] } : CodecResp).frame_bytes +
         ([9] : List Nat).length) ∧
    Accounted { reader := [], buffer := [9], totalRead := 3, consumed := 2,
                lastRead := some 0, lastSamples := some 0 } :=
  ⟨frame_accounting.1
      { samples := 0, frame_bytes := 2, channels := 0, hz := 0, layer := 0,
        bitrate_kbps := 0, pcm := [] }
      [9, 9, 9] (Except.error Error.skippedData) [9] rfl,
   frame_accounting.2.2
      [{ samples := 0, frame_bytes := 2, channels := 0, hz := 0, layer := 0,
         bitrate_kbps := 0, pcm := [] }]
      { reader := [], buffer := [9, 9, 9], totalRead := 3, consumed := 0,
        lastRead := none, lastSamples := none }
      (Except.error Error.eof) []
      { reader := [], buffer := [9], totalRead := 3, consumed := 2,
        lastRead := some 0, lastSamples := some 0 }
      rfl rfl⟩

/-- C4: in a `next_frame` iteration a refill happens exactly when the ring
buffer is below `REFILL_TRIGGER = 8 × MAX_SAMPLES_PER_FRAME` bytes; a
refill issues one read of at most `SCRATCH_SIZE = 5 × MAX_SAMPLES_PER_FRAME`
bytes and appends to the ring buffer's tail exactly the bytes the read
returned, so the buffer's logical length grows by exactly the count read
(including 1-byte partial reads). -/
theorem refill_policy_growth :
    (∀ st : DecoderState, ¬st.buffer.length < REFILL_TRIGGER →
       refillStep st = Sum.inr (none, st)) ∧
    (∀ (st : DecoderState) (n : Nat) (st₁ : DecoderState),
       st.buffer.length < REFILL_TRIGGER → refill st = (some n, st₁) →
       refillStep st = Sum.inr (some n, st₁)) ∧
    (∀ (st st' : DecoderState), st.buffer.length < REFILL_TRIGGER →
       refill st = (none, st') → refillStep st = Sum.inl st') ∧
    (∀ (st : DecoderState) (n : Nat) (st' : DecoderState),
       refill st = (some n, st') →
       n ≤ SCRATCH_SIZE ∧
       (∃ got : List Nat, got.length = n ∧ st'.buffer = st.buffer ++ got) ∧
       st'.buffer.length = st.buffer.length + n) := by
  refine ⟨fun st hge => ?_, fun st n st₁ hlt hr => ?_, fun st st' hlt hr => ?_,
    fun st n st' hr => ?_⟩
  · unfold refillStep
    rw [if_neg hge]
  · unfold refillStep
    rw [if_pos hlt, hr]
  · unfold refillStep
    rw [if_pos hlt, hr]
  · obtain ⟨h1, h2, h3, -⟩ := refill_some st n st' hr
    exact ⟨h1, h2, h3⟩

/-- Witness for C4: a full buffer suppresses the refill, a 1-byte read
grows the buffer by exactly 1 byte, and a failing read surfaces as the
`Io` branch. -/
theorem refill_policy_growth_witness :
    refillStep
        { reader := [], buffer := List.replicate REFILL_TRIGGER 0, totalRead := 0,
          consumed := 0, lastRead := none, lastSamples := none } =
      Sum.inr (none,
        { reader := [], buffer := List.replicate REFILL_TRIGGER 0, totalRead := 0,
          consumed := 0, lastRead := none, lastSamples := none }) ∧
    refillStep (Decoder.new [ReadEvent.chunk [42]]) =
      Sum.inr (some 1,
        { reader := [], buffer := [42], totalRead := 1, consumed := 0,
          lastRead := some 1, lastSamples := none }) ∧
    refillStep (Decoder.new [ReadEvent.readErr]) =
      Sum.inl
        { reader := [], buffer := [], totalRead := 0, consumed := 0,
          lastRead := none, lastSamples := none } ∧
    (1 ≤ SCRATCH_SIZE ∧
     (∃ got : List Nat, got.length = 1 ∧
        ([42] : List Nat) = ([] : List Nat) ++ got) ∧
     ([42] : List Nat).length = ([] : List Nat).length + 1) :=
  ⟨refill_policy_growth.1
      { reader := [], buffer := List.replicate REFILL_TRIGGER 0, totalRead := 0,
        consumed := 0, lastRead := none, lastSamples := none }
      (by simp),
   refill_policy_growth.2.1 (Decoder.new [ReadEvent.chunk [42]]) 1
      { reader := [], buffer := [42], totalRead := 1, consumed := 0,
        lastRead := some 1, lastSamples := none }
      (by decide) rfl,
   refill_policy_growth.2.2.1 (Decoder.new [ReadEvent.readErr])
      { reader := [], buffer := [], totalRead := 0, consumed := 0,
        lastRead := none, lastSamples := none }
      (by decide) rfl,
   refill_policy_growth.2.2.2 (Decoder.new [ReadEvent.chunk [42]]) 1
      { reader := [], buffer := [42], totalRead := 1, consumed := 0,
        lastRead := some 1, lastSamples := none }
      rfl⟩

/-- C5 (amended): once `next_frame` returns `Eof`, the most recent refill
read 0 bytes and the ring buffer is below the refill threshold; and for a
decoder whose source is exhausted and whose next decode attempt yields
zero samples (no decodable frame found), the next call returns `Eof`
again.  (`Eof` alone does not guarantee the buffer holds no decodable
frame — see the counterexample.) -/
theorem eof_zero_read_and_conditional_terminal :
    (∀ (codec : List CodecResp) (st : DecoderState) (res : Except Error Frame)
       (c' : List CodecResp) (st' : DecoderState),
       next_frame codec st = some (res, c', st') → res = Except.error Error.eof →
       st'.lastRead = some 0 ∧ st'.buffer.length < REFILL_TRIGGER) ∧
    (∀ (r : CodecResp) (rest : List CodecResp) (st : DecoderState),
       st.reader = [] → st.buffer.length < REFILL_TRIGGER →
       r.samples = 0 → r.frame_bytes ≤ st.buffer.length →
       next_frame (r :: rest) st =
         some (Except.error Error.eof, rest,
           afterDecode r { st with lastRead := some 0 }
             (st.buffer.drop r.frame_bytes))) := by
  constructor
  · intro codec st res c' st' h he
    obtain ⟨h1, -, h3⟩ := (next_frame_run codec st res c' st' h).2.1 he
    exact ⟨h1, h3⟩
  · intro r rest st hrd hlt hs hfb
    have hr : refill st = (some 0, { st with lastRead := some 0 }) := by
      unfold refill
      rw [hrd]
    exact (next_frame_iteration r rest st 0 _ hlt hr hs hfb).1 rfl

/-- Witness for C5: the `Eof` run of the counterexample satisfies the
zero-read consequence, and a decoder with exhausted source and a
no-frame decode attempt returns `Eof`. -/
theorem eof_zero_read_and_conditional_terminal_witness :
    (({ reader := [], buffer := [9], totalRead := 3, consumed := 2,
        lastRead := some 0, lastSamples := some 0 } : DecoderState).lastRead = some 0 ∧
     ({ reader := [], buffer := [9], totalRead := 3, consumed := 2,
        lastRead := some 0, lastSamples := some 0 } : DecoderState).buffer.length <
       REFILL_TRIGGER) ∧
    next_frame
        [{ samples := 0, frame_bytes := 0, channels := 0, hz := 0, layer := 0,
           bitrate_kbps := 0, pcm := [] }]
        { reader := [], buffer := [9], totalRead := 3, consumed := 2,
          lastRead := some 0, lastSamples := some 0 } =
      some (Except.error Error.eof, [],
        afterDecode
          { samples := 0, frame_bytes := 0, channels := 0, hz := 0, layer := 0,
            bitrate_kbps := 0, pcm := [] }
          { reader := [], buffer := [9], totalRead := 3, consumed := 2,
            lastRead := some 0, lastSamples := some 0 }
          (([9] : List Nat).drop 0)) :=
  ⟨eof_zero_read_and_conditional_terminal.1
      [{ samples := 0, frame_bytes := 2, channels := 0, hz := 0, layer := 0,
         bitrate_kbps := 0, pcm := [] }]
      { reader := [], buffer := [9, 9, 9], totalRead := 3, consumed := 0,
        lastRead := none, lastSamples := none }
      (Except.error Error.eof) []
      { reader := [], buffer := [9], totalRead := 3, consumed := 2,
        lastRead := some 0, lastSamples := some 0 }
      rfl rfl,
   eof_zero_read_and_conditional_terminal.2
      { samples := 0, frame_bytes := 0, channels := 0, hz := 0, layer := 0,
        bitrate_kbps := 0, pcm := [] }
      []
      { reader := [], buffer := [9], totalRead := 3, consumed := 2,
        lastRead := some 0, lastSamples := some 0 }
      rfl (by decide) rfl (by decide)⟩

/-- Counterexample to C5 as stated: a decoder whose source is exhausted
(reads return 0 bytes throughout) returns `Eof` after a skipping decode,
yet the ring buffer still holds a decodable frame and the very next call
returns that `Frame` — so `Eof` neither implies the buffer holds no
decodable frame nor that every subsequent call returns `Eof` again. -/
theorem eof_not_terminal_counterexample :
    next_frame
        [{ samples := 0, frame_bytes := 2, channels := 0, hz := 0, layer := 0,
           bitrate_kbps := 0, pcm := [] }]
        { reader := [], buffer := [9, 9, 9], totalRead := 3, consumed := 0,
          lastRead := none, lastSamples := none } =
      some (Except.error Error.eof, [],
        { reader := [], buffer := [9], totalRead := 3, consumed := 2,
          lastRead := some 0, lastSamples := some 0 }) ∧
    ({ reader := [], buffer := [9], totalRead := 3, consumed := 2,
       lastRead := some 0, lastSamples := some 0 } : DecoderState).reader = [] ∧
    next_frame
        [{ samples := 2, frame_bytes := 1, channels := 1, hz := 44100, layer := 3,
           bitrate_kbps := 128, pcm := [1, 2] }]
        { reader := [], buffer := [9], totalRead := 3, consumed := 2,
          lastRead := some 0, lastSamples := some 0 } =
      some (Except.ok { data := [1, 2], sample_rate := 44100, channels := 1,
                        layer := 3, bitrate := 128 }, [],
        { reader := [], buffer := [], totalRead := 3, consumed := 3,
          lastRead := some 0, lastSamples := some 2 }) :=
  ⟨rfl, rfl, rfl⟩

/-- C6 (amended): the demand-read callback loops until it has placed
exactly `size` bytes (returning the count placed), or a read returns 0
first (returning the possibly-zero count placed so far), or a read fails
(returning `u64::MAX`); for every requested `size` strictly below
`u64::MAX` the sentinel is distinct from every legitimate count, since
legitimate counts are at most `size`. -/
theorem read_callback_counts (reader : List ReadEvent) (size : Nat) :
    ((read_callback reader size).failed = false →
       (read_callback reader size).ret = (read_callback reader size).placed.length ∧
       (read_callback reader size).ret ≤ size) ∧
    ((read_callback reader size).failed = true →
       (read_callback reader size).ret = U64_MAX) ∧
    (size < U64_MAX → (read_callback reader size).failed = false →
       (read_callback reader size).ret ≠ U64_MAX) := by
  have h := read_callback_go_spec size reader 0 [] (Nat.zero_le _)
  unfold read_callback
  refine ⟨fun hf => ?_, fun hf => h.2 hf, fun hs hf => ?_⟩
  · obtain ⟨h1, h2⟩ := h.1 hf
    simp only [List.length_nil, Nat.add_zero, Nat.zero_add] at h2
    exact ⟨h2, h1⟩
  · obtain ⟨h1, _⟩ := h.1 hf
    omega

/-- Witness for C6 at concrete inputs: a short 3-byte success, a failing
read, and the sentinel-distinctness at size 5. -/
theorem read_callback_counts_witness :
    ((read_callback [ReadEvent.chunk [1, 2, 3]] 5).ret =
       (read_callback [ReadEvent.chunk [1, 2, 3]] 5).placed.length ∧
     (read_callback [ReadEvent.chunk [1, 2, 3]] 5).ret ≤ 5) ∧
    (read_callback [ReadEvent.readErr] 5).ret = U64_MAX ∧
    (read_callback [ReadEvent.chunk [1, 2, 3]] 5).ret ≠ U64_MAX :=
  ⟨(read_callback_counts [ReadEvent.chunk [1, 2, 3]] 5).1 (by decide),
   (read_callback_counts [ReadEvent.readErr] 5).2.1 (by decide),
   (read_callback_counts [ReadEvent.chunk [1, 2, 3]] 5).2.2 (by decide) (by decide)⟩

/-- Counterexample to C6 as stated: at the request size `u64::MAX` itself,
a fully satisfied demand-read (no read ever failed) also returns
`u64::MAX`, so the error sentinel is not distinct from every legitimate
count for every requested size. -/
theorem read_callback_sentinel_collision :
    (read_callback [ReadEvent.chunk (List.replicate U64_MAX 0)] U64_MAX).failed = false ∧
    (read_callback [ReadEvent.chunk (List.replicate U64_MAX 0)] U64_MAX).ret = U64_MAX := by
  have h := read_callback_full_single (List.replicate U64_MAX 0)
    (by rw [List.length_replicate]; decide)
  rw [List.length_replicate] at h
  rw [h]
  exact ⟨rfl, rfl⟩

/-- C7: `SeekDecoder::read_samples` returns `Ok(len)` when the codec fills
exactly `buf.len()` samples; on a short count it returns the translated
codec error when `last_error` is nonzero, and otherwise returns the short
count (possibly 0) as success. -/
theorem read_samples_classification (bufLen len : Nat) (ec : Int) :
    (len = bufLen → SeekDecoder.read_samples bufLen len ec = some (Except.ok len)) ∧
    (len < bufLen → ec ≠ 0 →
      ∃ e, from_mini_error ec = Except.error e ∧
        SeekDecoder.read_samples bufLen len ec = some (Except.error e)) ∧
    (len < bufLen → ec = 0 →
      SeekDecoder.read_samples bufLen len ec = some (Except.ok len)) := by
  refine ⟨fun h => ?_, fun hlt hec => ?_, fun hlt hec => ?_⟩
  · unfold SeekDecoder.read_samples
    rw [if_pos h]
  · obtain ⟨e, he⟩ := from_mini_error_nonzero ec hec
    refine ⟨e, he, ?_⟩
    unfold SeekDecoder.read_samples
    rw [if_neg (Nat.ne_of_lt hlt), if_pos hlt, he]
  · unfold SeekDecoder.read_samples
    rw [if_neg (Nat.ne_of_lt hlt), if_pos hlt]
    subst hec
    simp [from_mini_error]

/-- Witness for C7 at concrete inputs: a full read of 4 of 4 samples, a
short read of 2 with `last_error = MP3D_E_DECODE`, and a short read of 2
with `last_error = 0`. -/
theorem read_samples_classification_witness :
    SeekDecoder.read_samples 4 4 (-5) = some (Except.ok 4) ∧
    (∃ e, from_mini_error (-5) = Except.error e ∧
      SeekDecoder.read_samples 4 2 (-5) = some (Except.error e)) ∧
    SeekDecoder.read_samples 4 2 0 = some (Except.ok 2) :=
  ⟨(read_samples_classification 4 4 (-5)).1 rfl,
   (read_samples_classification 4 2 (-5)).2.1 (by decide) (by decide),
   (read_samples_classification 4 2 0).2.2 (by decide) rfl⟩

/-- C8: `SeekDecoder::decode_frame` surfaces the classification directly:
zero samples with positive consumed bytes gives `SkippedData`, zero samples
with zero consumed bytes gives `InsufficientData` (the terminal condition
at stream end, there being no separate `Eof` variant on this path), and a
positive sample count gives a `Frame`. -/
theorem seek_decode_frame_classification (r : ExFrameResp) :
    (r.samples = 0 → 0 < r.frame_bytes →
      SeekDecoder.decode_frame r = Except.error Error.skippedData) ∧
    (r.samples = 0 → r.frame_bytes = 0 →
      SeekDecoder.decode_frame r = Except.error Error.insufficientData) ∧
    (0 < r.samples → ∃ f, SeekDecoder.decode_frame r = Except.ok f) := by
  refine ⟨fun hs hb => ?_, fun hs hb => ?_, fun hs => ?_⟩
  · unfold SeekDecoder.decode_frame
    rw [if_pos hs, if_pos hb]
  · unfold SeekDecoder.decode_frame
    rw [if_pos hs, if_neg (by omega)]
  · have hok : SeekDecoder.decode_frame r = Except.ok
        { data := r.pcm.take r.samples
          sample_rate := r.hz
          channels := r.channels
          layer := r.layer
          bitrate := r.bitrate_kbps } := by
      simp only [SeekDecoder.decode_frame]
      rw [if_neg (show ¬r.samples = 0 by omega)]
    exact ⟨_, hok⟩

/-- Witness for C8 at concrete codec responses: a 3-byte skip, a true
stream end, and a 2-sample frame. -/
theorem seek_decode_frame_classification_witness :
    SeekDecoder.decode_frame
        { samples := 0, frame_bytes := 3, channels := 0, hz := 0, layer := 0,
          bitrate_kbps := 0, pcm := [] } = Except.error Error.skippedData ∧
    SeekDecoder.decode_frame
        { samples := 0, frame_bytes := 0, channels := 0, hz := 0, layer := 0,
          bitrate_kbps := 0, pcm := [] } = Except.error Error.insufficientData ∧
    ∃ f, SeekDecoder.decode_frame
        { samples := 2, frame_bytes := 100, channels := 1, hz := 44100, layer := 3,
          bitrate_kbps := 128, pcm := [1, 2] } = Except.ok f :=
  ⟨(seek_decode_frame_classification _).1 rfl (by decide),
   (seek_decode_frame_classification _).2.1 rfl rfl,
   (seek_decode_frame_classification _).2.2 (by decide)⟩

/-- C9: a codec consistency violation aborts instead of becoming an error
value: `Decoder::decode_frame`'s head trim aborts exactly when the reported
`frame_bytes` exceeds the ring buffer's length, and
`SeekDecoder::read_samples` panics exactly when the codec reports more
samples written than the destination holds. -/
theorem consistency_violation_aborts :
    (∀ (r : CodecResp) (buf : List Nat),
       decode_frame r buf = none ↔ buf.length < r.frame_bytes) ∧
    (∀ (bufLen len : Nat) (ec : Int),
       SeekDecoder.read_samples bufLen len ec = none ↔ bufLen < len) := by
  constructor
  · intro r buf
    unfold decode_frame
    split
    · split
      · split <;> simp <;> omega
      · simp
        omega
    · simp
      omega
  · intro bufLen len ec
    unfold SeekDecoder.read_samples
    split
    · simp
      omega
    · split
      · split <;> simp <;> omega
      · simp
        omega

/-- C10: constructing a sequential decoder performs no read — the reader is
stored untouched, the ring buffer starts empty, nothing has been read — and
`into_inner` returns the reader unchanged. -/
theorem decoder_new_into_inner_identity (r : List ReadEvent) :
    Decoder.into_inner (Decoder.new r) = r ∧
    (Decoder.new r).reader = r ∧
    (Decoder.new r).buffer = [] ∧
    (Decoder.new r).totalRead = 0 :=
  ⟨rfl, rfl, rfl, rfl⟩

end Minimp3
